import Mathlib

/-!
Verification model of the Outburn-IL fhir-client library.

The definitions below are a shallow embedding of `src/utils.ts` and
`src/client.ts` (the current revision of `FhirClient`, i.e. the variant with
`noCache`, `asPost` and `maxResults` support).  JavaScript scalars that can
appear as search-parameter values are modelled by `Scalar`; a JS object used
as a string-keyed map is modelled as an association list in insertion order.
The HTTP transport (axios) is a black box modelled as a function from a
request configuration to a response or a transport error, and the lru-cache
is modelled as a key-value map (its `get`/`set` interface is all the client
code under scrutiny uses).  `JSON.stringify` of the request configuration,
used only as an injective cache key, is modelled as the identity injection on
request configurations.  Percent-decoding and -encoding of
`application/x-www-form-urlencoded` data is modelled at the character level,
faithful for the ASCII inputs exercised here.
-/

set_option autoImplicit false

/-- Scalar parameter values: JS string, number or boolean
(`string | number | boolean` in `src/types.ts`). Numbers are modelled as
integers; no claim exercises fractional values. -/
inductive Scalar where
  | str (s : String)
  | num (n : Int)
  | bool (b : Bool)
  deriving DecidableEq, Repr

/-- A search-parameter value: a scalar or an array of scalars
(`string | number | boolean | (string | number | boolean)[]`). -/
inductive ParamValue where
  | scalar (v : Scalar)
  | arr (vs : List Scalar)
  deriving DecidableEq, Repr

/-- A JS object of search parameters, as an association list in insertion
(caller) order. -/
abbrev SearchParams := List (String × ParamValue)

/-- Lookup of a key in a JS-object model (first match). -/
def lookupKey (m : SearchParams) (k : String) : Option ParamValue :=
  match m with
  | [] => none
  | (k', v) :: rest => if k' = k then some v else lookupKey rest k

/-- Assignment `m[k] = v` on a JS-object model: replaces the value at the
first occurrence of `k`, otherwise appends at the end (insertion order). -/
def setKey (m : SearchParams) (k : String) (v : ParamValue) : SearchParams :=
  match m with
  | [] => [(k, v)]
  | (k', v') :: rest => if k' = k then (k', v) :: rest else (k', v') :: setKey rest k v

/-- Value of a hexadecimal digit character, when it is one. -/
def hexDigitVal (c : Char) : Option Nat :=
  if '0' ≤ c ∧ c ≤ '9' then some (c.toNat - 48)
  else if 'a' ≤ c ∧ c ≤ 'f' then some (c.toNat - 87)
  else if 'A' ≤ c ∧ c ≤ 'F' then some (c.toNat - 55)
  else none

/-- Form-urlencoded decoding, fuel-indexed so that the recursion is
structural (the fuel is set to the character count, which every step
consumes at least one of): `+` becomes a space and `%XY` with two hex digits
becomes the character with that code (ASCII-faithful model of the WHATWG
byte-level decoder). An invalid `%` sequence is kept verbatim. -/
def formDecodeAux : Nat → List Char → List Char
  | 0, _ => []
  | _ + 1, [] => []
  | n + 1, c :: rest =>
    if c = '+' then ' ' :: formDecodeAux n rest
    else if c = '%' then
      match rest with
      | a :: b :: rest' =>
        match hexDigitVal a, hexDigitVal b with
        | some hi, some lo => Char.ofNat (16 * hi + lo) :: formDecodeAux n rest'
        | _, _ => '%' :: formDecodeAux n (a :: b :: rest')
      | _ => c :: formDecodeAux n rest
    else c :: formDecodeAux n rest

/-- Form-urlencoded decoding of a character sequence. -/
def formDecodeChars (cs : List Char) : List Char :=
  formDecodeAux cs.length cs

/-- Splitting a character sequence on a separator character (the pieces, in
order, with separators dropped; n separators yield n+1 pieces). -/
def splitOnChar (sep : Char) : List Char → List (List Char)
  | [] => [[]]
  | c :: rest =>
    if c = sep then [] :: splitOnChar sep rest
    else
      match splitOnChar sep rest with
      | [] => [[c]]
      | piece :: more => (c :: piece) :: more

/-- One `name=value` piece of a query string, split at the first `=`; both
sides are form-decoded, and a piece without `=` yields an empty value. -/
def splitPair (cs : List Char) : String × String :=
  let name := cs.takeWhile (fun c => c ≠ '=')
  match cs.dropWhile (fun c => c ≠ '=') with
  | [] => (String.mk (formDecodeChars name), "")
  | _ :: vcs => (String.mk (formDecodeChars name), String.mk (formDecodeChars vcs))

/-- A leading question mark is removed by the `URLSearchParams` constructor. -/
def stripLeadingQuestion (cs : List Char) : List Char :=
  match cs with
  | '?' :: rest => rest
  | _ => cs

/-- Model of iterating `new URLSearchParams(query)`: split on `&`, skip empty
pieces, split each piece at its first `=`, form-decode both sides; pairs are
produced in left-to-right query order. -/
def parseQuery (q : String) : List (String × String) :=
  ((splitOnChar '&' (stripLeadingQuestion q.toList)).filter (fun p => p ≠ [])).map splitPair

/-- Flattening of a `ParamValue` into its scalar elements, mirroring the JS
spread `...value` / singleton push. -/
def toScalarList : ParamValue → List Scalar
  | .scalar v => [v]
  | .arr vs => vs

/-- One step of the query-string phase of `mergeSearchParams`
(`urlParams.forEach` body, src/utils.ts): a fresh key is stored as a scalar
string, a scalar becomes a two-element list, a list gets the value pushed. -/
def addQueryPair (m : SearchParams) (k : String) (v : String) : SearchParams :=
  match lookupKey m k with
  | none => setKey m k (.scalar (.str v))
  | some (.scalar e) => setKey m k (.arr [e, .str v])
  | some (.arr es) => setKey m k (.arr (es ++ [.str v]))

/-- One step of the explicit-params phase of `mergeSearchParams`
(`Object.entries(params).forEach` body): a fresh key is stored verbatim; a
colliding key yields the concatenation existing-then-incoming, each side
spread to its scalar elements. -/
def addExplicitPair (m : SearchParams) (k : String) (v : ParamValue) : SearchParams :=
  match lookupKey m k with
  | none => setKey m k v
  | some e => setKey m k (.arr (toScalarList e ++ toScalarList v))

/-- `mergeSearchParams(query, params?)` from src/utils.ts: fold the parsed
query pairs into an empty object, then fold the explicit parameters in caller
order. -/
def mergeSearchParams (query : String) (params : Option SearchParams) : SearchParams :=
  let fromQuery := (parseQuery query).foldl (fun m p => addQueryPair m p.1 p.2) []
  match params with
  | none => fromQuery
  | some ps => ps.foldl (fun m p => addExplicitPair m p.1 p.2) fromQuery

/-- Error values raised by the client, each constructor carrying the data
interpolated into the corresponding `throw new Error(...)` message in the
source (`FhirError.message` renders the exact text). `outOfFuel` is an
artifact of the bounded model of the unbounded pagination loop and is never
produced when enough fuel is supplied. -/
inductive FhirError where
  | unsupportedVersion (token : String)
  | wrongResourceType (op : String) (actual : String)
  | wrongBundleType (op : String) (expected : String) (actual : String)
  | maxResultsInitial (bound : Nat)
  | maxResultsPage (bound : Nat)
  | transportFailure (msg : String)
  | noMatch
  | multipleMatches (count : Nat)
  | malformedResource
  | outOfFuel
  deriving DecidableEq, Repr

/-- The message text of each error, as interpolated in the source. -/
def FhirError.message : FhirError → String
  | .unsupportedVersion t => "Unsupported FHIR version: " ++ t
  | .wrongResourceType op actual => op ++ " requires a Bundle resource, got " ++ actual
  | .wrongBundleType op expected actual =>
      op ++ " requires a Bundle of type '" ++ expected ++ "', got '" ++ actual ++ "'"
  | .maxResultsInitial n =>
      "Maximum result limit (" ++ Nat.repr n ++
        ") exceeded. Narrow down your search or increase maxFetchAllResults."
  | .maxResultsPage n =>
      "Maximum result limit (" ++ Nat.repr n ++
        ") exceeded. Use pagination or increase maxFetchAllResults config."
  | .transportFailure m => m
  | .noMatch => "Search returned no match"
  | .multipleMatches n =>
      "Search returned multiple matches (" ++ Nat.repr n ++ "), criteria not selective enough"
  | .malformedResource => "Server returned malformed resource without resourceType or id"
  | .outOfFuel => "model artifact: fuel exhausted"

deriving instance DecidableEq for Except

/-- The nine version tokens of the `FhirVersion` union in src/types.ts. -/
def acceptedVersionTokens : List String :=
  ["3.0.1", "3.0", "R3", "4.0.1", "4.0", "R4", "5.0.0", "5.0", "R5"]

/-- `normalizeFhirVersion` from src/utils.ts: the switch over the nine
accepted spellings, falling through to a thrown unsupported-version error. -/
def normalizeFhirVersion (version : String) : Except FhirError String :=
  if version = "3.0.1" ∨ version = "3.0" ∨ version = "R3" then .ok "3.0"
  else if version = "4.0.1" ∨ version = "4.0" ∨ version = "R4" then .ok "4.0"
  else if version = "5.0.0" ∨ version = "5.0" ∨ version = "R5" then .ok "5.0"
  else .error (.unsupportedVersion version)

/-- A navigation link of a bundle (`link` items in src/types.ts). -/
structure Link where
  relation : String
  url : String
  deriving DecidableEq, Repr

/-- A resource as far as the client inspects it: a type tag and an optional
identifier (all other fields are opaque to the code under scrutiny; the type
tag is optional because servers are not trusted to populate it). -/
structure Resource where
  resourceType : Option String
  id : Option String
  deriving DecidableEq, Repr

/-- One entry of a bundle: an optional resource payload and an optional
`search.mode` marker. An absent `entry` array and an empty one behave
identically in every code path modelled here, so entries are a plain list. -/
structure Entry where
  resource : Option Resource := none
  mode : Option String := none
  deriving DecidableEq, Repr

/-- A bundle (`Bundle` in src/types.ts): the runtime `resourceType` string,
the bundle `type`, navigation links and entries. -/
structure Bundle where
  resourceType : String
  type : String
  link : List Link := []
  entry : List Entry := []
  deriving DecidableEq, Repr

/-- Request body payloads used by the modelled operations. -/
inductive ReqData where
  | form (body : String)
  | bundle (b : Bundle)
  deriving DecidableEq, Repr

/-- An axios request configuration as built by the client. -/
structure ReqConfig where
  method : String
  url : String
  params : SearchParams := []
  data : Option ReqData := none
  headers : List (String × String) := []
  deriving DecidableEq, Repr

/-- Header lookup (first match). -/
def lookupHeader (hs : List (String × String)) (k : String) : Option String :=
  match hs with
  | [] => none
  | (k', v) :: rest => if k' = k then some v else lookupHeader rest k

/-- Header assignment, replacing an existing entry for the key. -/
def setHeader (hs : List (String × String)) (k : String) (v : String) : List (String × String) :=
  match hs with
  | [] => [(k, v)]
  | (k', v') :: rest => if k' = k then (k', v) :: rest else (k', v') :: setHeader rest k v

/-- The response cache, modelled as a map from request configurations to
cached response bodies; `JSON.stringify(config)` is injective on
configurations, so keying by the configuration itself is faithful. -/
abbrev Cache := List (ReqConfig × Bundle)

/-- Cache lookup (`cache.get(cacheKey)`). -/
def cacheGet (c : Cache) (k : ReqConfig) : Option Bundle :=
  match c with
  | [] => none
  | (k', v) :: rest => if k' = k then some v else cacheGet rest k

/-- Cache store (`cache.set(cacheKey, data)`), replacing an existing entry. -/
def cacheSet (c : Cache) (k : ReqConfig) (v : Bundle) : Cache :=
  match c with
  | [] => [(k, v)]
  | (k', v') :: rest => if k' = k then (k', v) :: rest else (k', v') :: cacheSet rest k v

/-- The HTTP transport (axios) as a black box: a response body or a
transport error per request configuration. -/
abbrev Transport := ReqConfig → Except String Bundle

/-- Outcome of one `request` invocation: the result, the cache afterwards,
the transport invocations made (in order), and whether the result was served
from the cache. -/
structure ReqOut where
  result : Except FhirError Bundle
  cache : Cache
  calls : List ReqConfig
  fromCache : Bool
  deriving Repr

/-- ASCII lower-casing of one character (model of JS `toLowerCase`). -/
def lowerChar (c : Char) : Char :=
  if 'A' ≤ c ∧ c ≤ 'Z' then Char.ofNat (c.toNat + 32) else c

/-- ASCII lower-casing of a string (model of JS `String.prototype.toLowerCase`). -/
def lowerString (s : String) : String :=
  String.mk (s.toList.map lowerChar)

/-- The mutating-verb test `['post','put','patch'].includes(method.toLowerCase())`. -/
def isMutationMethod (method : String) : Bool :=
  lowerString method = "post" || lowerString method = "put" || lowerString method = "patch"

/-- The JS falsy test `!config.headers?.['Content-Type']`: absent or empty. -/
def contentTypeMissing (hs : List (String × String)) : Bool :=
  (lookupHeader hs "Content-Type").getD "" = ""

/-- The transport leg of `FhirClient.request`: Content-Type injection for
mutating verbs (which re-runs `normalizeFhirVersion` and can fail), exactly
one transport invocation, and the post-response cache store for eligible GET
calls. The store key is the configuration as captured before header
injection, as in the source. -/
def requestSend (cacheEnabled : Bool) (fhirVersion : String) (transport : Transport)
    (cache : Cache) (cfg : ReqConfig) (noCache : Bool) : ReqOut :=
  let prepared : Except FhirError ReqConfig :=
    if isMutationMethod cfg.method && contentTypeMissing cfg.headers then
      match normalizeFhirVersion fhirVersion with
      | .error e => .error e
      | .ok canonical =>
          let hs := setHeader cfg.headers "Content-Type"
            ("application/fhir+json; fhirVersion=" ++ canonical)
          .ok { cfg with headers := hs }
    else .ok cfg
  match prepared with
  | .error e => ⟨.error e, cache, [], false⟩
  | .ok cfg' =>
    match transport cfg' with
    | .error e => ⟨.error (.transportFailure e), cache, [cfg'], false⟩
    | .ok data =>
      if cacheEnabled && lowerString cfg.method = "get" && !noCache then
        ⟨.ok data, cacheSet cache cfg data, [cfg'], false⟩
      else ⟨.ok data, cache, [cfg'], false⟩

/-- `FhirClient.request` (private): cache lookup for eligible GET calls
unless bypassed, then the transport leg. -/
def request (cacheEnabled : Bool) (fhirVersion : String) (transport : Transport)
    (cache : Cache) (cfg : ReqConfig) (noCache : Bool) : ReqOut :=
  if cacheEnabled && lowerString cfg.method = "get" && !noCache then
    match cacheGet cache cfg with
    | some v => ⟨.ok v, cache, [], true⟩
    | none => requestSend cacheEnabled fhirVersion transport cache cfg noCache
  else requestSend cacheEnabled fhirVersion transport cache cfg noCache

/-- The resources of a bundle's entries:
`entry.map(e => e.resource).filter(r => !!r)`. -/
def collectEntries (b : Bundle) : List Resource :=
  (b.entry.map (fun e => e.resource)).filterMap id

/-- `link.some(l => l.relation === 'next')`. -/
def hasNextLink (b : Bundle) : Bool :=
  b.link.any (fun l => l.relation = "next")

/-- `link.find(l => l.relation === 'next')`. -/
def findNextLink (b : Bundle) : Option Link :=
  b.link.find? (fun l => l.relation = "next")

/-- Outcome of a pagination walk (and of `search`'s resource-list flavor). -/
structure WalkOut where
  result : Except FhirError (List Resource)
  cache : Cache
  calls : List ReqConfig
  deriving Repr

/-- The `while` loop of `FhirClient.fetchAllPages`, fuel-indexed to model the
unbounded source loop: while the current bundle carries a non-empty `next`
link, fetch it through `request` (with the cache bypass NOT set), append the
fetched page's resources, and fail past the bound before any further fetch. -/
def fetchPagesLoop (cacheEnabled : Bool) (fhirVersion : String) (transport : Transport) :
    Nat → Cache → Bundle → List Resource → Nat → WalkOut
  | 0, cache, _, _, _ => ⟨.error .outOfFuel, cache, []⟩
  | fuel + 1, cache, cur, results, maxResults =>
    if hasNextLink cur then
      match findNextLink cur with
      | none => ⟨.ok results, cache, []⟩
      | some l =>
        if l.url = "" then ⟨.ok results, cache, []⟩
        else
          let out := request cacheEnabled fhirVersion transport cache
            { method := "GET", url := l.url } false
          match out.result with
          | .error e => ⟨.error e, out.cache, out.calls⟩
          | .ok nb =>
            let results' := results ++ collectEntries nb
            if results'.length > maxResults then
              ⟨.error (.maxResultsPage maxResults), out.cache, out.calls⟩
            else
              let rest := fetchPagesLoop cacheEnabled fhirVersion transport fuel
                out.cache nb results' maxResults
              ⟨rest.result, rest.cache, out.calls ++ rest.calls⟩
    else ⟨.ok results, cache, []⟩

/-- `FhirClient.fetchAllPages`: collect the initial bundle's resources, fail
if the bound is already exceeded, then walk the `next` links. -/
def fetchAllPages (cacheEnabled : Bool) (fhirVersion : String) (transport : Transport)
    (fuel : Nat) (cache : Cache) (initialBundle : Bundle) (maxResults : Nat) : WalkOut :=
  let results := collectEntries initialBundle
  if results.length > maxResults then
    ⟨.error (.maxResultsInitial maxResults), cache, []⟩
  else fetchPagesLoop cacheEnabled fhirVersion transport fuel cache initialBundle results maxResults

/-- JS `String(value)` on a scalar. -/
def scalarToJsString : Scalar → String
  | .str s => s
  | .num n => if n < 0 then "-" ++ Nat.repr n.natAbs else Nat.repr n.natAbs
  | .bool b => if b then "true" else "false"

/-- JS `String(value)` on a search-parameter value: an array stringifies to
its elements joined by commas (`Array.prototype.toString`). -/
def jsStringOfValue : ParamValue → String
  | .scalar v => scalarToJsString v
  | .arr vs => String.intercalate "," (vs.map scalarToJsString)

/-- One hex digit character, uppercase. -/
def hexDigitChar (n : Nat) : Char :=
  if n < 10 then Char.ofNat (48 + n) else Char.ofNat (55 + n)

/-- Form-urlencoded serialization of one character (ASCII-faithful model of
the WHATWG serializer): alphanumerics and `*-._` verbatim, space as `+`, all
else percent-encoded. -/
def formEncodeChar (c : Char) : List Char :=
  if c.isAlphanum || c = '*' || c = '-' || c = '.' || c = '_' then [c]
  else if c = ' ' then ['+']
  else ['%', hexDigitChar (c.toNat / 16 % 16), hexDigitChar (c.toNat % 16)]

/-- Form-urlencoded serialization of a string. -/
def formEncode (s : String) : String :=
  String.mk (s.toList.flatMap formEncodeChar)

/-- `URLSearchParams.toString()` on a list of name-value pairs. -/
def urlSearchParamsToString (pairs : List (String × String)) : String :=
  String.intercalate "&" (pairs.map (fun p => formEncode p.1 ++ "=" ++ formEncode p.2))

/-- The form body built by `FhirClient.search` for `asPost`:
`new URLSearchParams(Object.entries(searchParams).map(([key, value]) =>
[key, String(value)])).toString()` — note the `String(value)` on each whole
value, arrays included. -/
def searchPostBody (searchParams : SearchParams) : String :=
  urlSearchParamsToString (searchParams.map (fun p => (p.1, jsStringOfValue p.2)))

/-- Substring test, modelling JS `String.prototype.includes`. -/
def strContains (s pat : String) : Bool :=
  (List.range (s.length + 1)).any (fun i => pat.toList.isPrefixOf (s.toList.drop i))

/-- The split of `resourceTypeOrQuery` at the first `?`
(`indexOf('?')` / `substring`): the part before it and, when present,
everything after it. -/
def splitQuery (s : String) : String × Option String :=
  match splitOnChar '?' s.toList with
  | [] => (s, none)
  | [_] => (s, none)
  | first :: rest =>
      (String.mk first, some (String.intercalate "?" (rest.map String.mk)))

/-- Options of `FhirClient.search`. -/
structure SearchOptions where
  fetchAll : Bool := false
  maxResults : Option Nat := none
  asPost : Bool := false
  noCache : Bool := false
  deriving Repr

/-- Result of `FhirClient.search`: a single bundle, or the accumulated
resources when `fetchAll` is set. -/
inductive SearchResult where
  | bundle (b : Bundle)
  | resources (rs : List Resource)
  deriving DecidableEq, Repr

/-- Outcome of one `search` invocation. -/
structure SearchOut where
  result : Except FhirError SearchResult
  cache : Cache
  calls : List ReqConfig
  deriving Repr

/-- `FhirClient.search`: split off an inline query string and merge it with
the explicit parameters; issue either a form-encoded POST to the `_search`
sub-path or a plain GET, passing the caller's `noCache` flag to that one
request; when `fetchAll` is set, walk the pages under the effective bound
`options.maxResults ?? config.maxFetchAllResults ?? 10000`. -/
def search (cacheEnabled : Bool) (fhirVersion : String) (maxFetchAllResults : Option Nat)
    (transport : Transport) (fuel : Nat) (cache : Cache)
    (resourceTypeOrQuery : String) (params : Option SearchParams)
    (opts : SearchOptions) : SearchOut :=
  let url := (splitQuery resourceTypeOrQuery).1
  let searchParams :=
    match (splitQuery resourceTypeOrQuery).2 with
    | some q => mergeSearchParams q params
    | none => params.getD []
  let out :=
    if opts.asPost then
      let searchUrl := if strContains url "/_search" then url else url ++ "/_search"
      request cacheEnabled fhirVersion transport cache
        { method := "POST", url := searchUrl,
          data := some (.form (searchPostBody searchParams)),
          headers := [("Content-Type", "application/x-www-form-urlencoded")] }
        opts.noCache
    else
      request cacheEnabled fhirVersion transport cache
        { method := "GET", url := url, params := searchParams } opts.noCache
  match out.result with
  | .error e => ⟨.error e, out.cache, out.calls⟩
  | .ok response =>
    if opts.fetchAll then
      let maxResults := opts.maxResults.getD (maxFetchAllResults.getD 10000)
      let walk := fetchAllPages cacheEnabled fhirVersion transport fuel out.cache
        response maxResults
      ⟨walk.result.map .resources, walk.cache, out.calls ++ walk.calls⟩
    else ⟨.ok (.bundle response), out.cache, out.calls⟩

/-- `FhirClient.processTransaction`: reject a non-Bundle resource, reject a
bundle whose type is not `transaction` (naming expected and actual type),
then POST the bundle to the service root. -/
def processTransaction (cacheEnabled : Bool) (fhirVersion : String) (transport : Transport)
    (cache : Cache) (bundle : Bundle) : ReqOut :=
  if bundle.resourceType ≠ "Bundle" then
    ⟨.error (.wrongResourceType "processTransaction" bundle.resourceType), cache, [], false⟩
  else if bundle.type ≠ "transaction" then
    ⟨.error (.wrongBundleType "processTransaction" "transaction" bundle.type), cache, [], false⟩
  else
    request cacheEnabled fhirVersion transport cache
      { method := "POST", url := "", data := some (.bundle bundle) } false

/-- `FhirClient.processBatch`: the same guards with type `batch`. -/
def processBatch (cacheEnabled : Bool) (fhirVersion : String) (transport : Transport)
    (cache : Cache) (bundle : Bundle) : ReqOut :=
  if bundle.resourceType ≠ "Bundle" then
    ⟨.error (.wrongResourceType "processBatch" bundle.resourceType), cache, [], false⟩
  else if bundle.type ≠ "batch" then
    ⟨.error (.wrongBundleType "processBatch" "batch" bundle.type), cache, [], false⟩
  else
    request cacheEnabled fhirVersion transport cache
      { method := "POST", url := "", data := some (.bundle bundle) } false

/-- Modelled from the spec: the ResourceResolver (spec section 4.7) is absent
from src/ — only its tests call `client.resolve`, `client.toLiteral` and
`client.resourceId`. Surviving entries of the search page are those whose
resource payload is present and whose search-mode marker is not explicitly
the `outcome` tag (no marker, or a `match` marker, is kept). -/
def survivingEntries (b : Bundle) : List Resource :=
  (b.entry.filter (fun e => e.resource.isSome && e.mode ≠ some "outcome")).filterMap
    (fun e => e.resource)

/-- Modelled from the spec: the resolver core selecting the unique match from
the search page — zero surviving entries fail with no-match, more than one
fail with multiple-matches carrying the count, a unique survivor lacking both
type tag and identifier fails as malformed, otherwise it is returned. -/
def selectResolvedResource (b : Bundle) : Except FhirError Resource :=
  match survivingEntries b with
  | [] => .error .noMatch
  | [r] =>
    if r.resourceType = none ∧ r.id = none then .error .malformedResource
    else .ok r
  | rs => .error (.multipleMatches rs.length)

/-- Modelled from the spec: the search-backed leg of `resolve`, applied to
the page returned by the (single, non-fetchAll) search. -/
def resolveFromPage (b : Bundle) : Except FhirError Resource :=
  selectResolvedResource b

/-- Modelled from the spec: the `toLiteral` convenience variant, building the
`Type/id` literal from the resolver core's unique match. -/
def toLiteralFromPage (b : Bundle) : Except FhirError String :=
  (selectResolvedResource b).map
    (fun r => r.resourceType.getD "" ++ "/" ++ r.id.getD "")

/-- Modelled from the spec: the `resourceId` convenience variant, returning
just the identifier of the resolver core's unique match. -/
def resourceIdFromPage (b : Bundle) : Except FhirError String :=
  (selectResolvedResource b).map (fun r => r.id.getD "")

/-- The multi-value view of a possibly-absent merged entry: no entry is no
values, a scalar is one value, an array is its elements. -/
def flattenValue : Option ParamValue → List Scalar
  | none => []
  | some v => toScalarList v

/-- The canonical merged representation of a value multiset built by the
query-string phase: absent for zero values, a bare scalar for exactly one,
an array for two or more. -/
def reprOfScalars : List Scalar → Option ParamValue
  | [] => none
  | [v] => some (.scalar v)
  | vs => some (.arr vs)

/-- The values the query string contributes for one key, in query order. -/
def queryValuesFor (q : String) (k : String) : List String :=
  ((parseQuery q).filter (fun p => p.1 = k)).map (fun p => p.2)

/-- The scalar values the explicit parameter map contributes for one key. -/
def explicitScalarsFor (ps : SearchParams) (k : String) : List Scalar :=
  flattenValue (lookupKey ps k)

theorem lookupKey_setKey_self (m : SearchParams) (k : String) (v : ParamValue) :
    lookupKey (setKey m k v) k = some v := by
  induction m with
  | nil => simp [setKey, lookupKey]
  | cons p rest ih =>
    obtain ⟨k0, v0⟩ := p
    by_cases h : k0 = k <;> simp [setKey, lookupKey, h, ih]

theorem lookupKey_setKey_ne (m : SearchParams) (k k' : String) (v : ParamValue)
    (h : k' ≠ k) : lookupKey (setKey m k' v) k = lookupKey m k := by
  induction m with
  | nil => simp [setKey, lookupKey, h]
  | cons p rest ih =>
    obtain ⟨k0, v0⟩ := p
    by_cases h0 : k0 = k' <;> simp [setKey, lookupKey, h0, ih, h]

theorem lookupKey_eq_none (ps : SearchParams) (k : String) :
    lookupKey ps k = none ↔ k ∉ ps.map Prod.fst := by
  induction ps with
  | nil => simp [lookupKey]
  | cons p rest ih =>
    obtain ⟨k0, v0⟩ := p
    by_cases h : k0 = k
    · subst h
      simp [lookupKey]
    · have h' : ¬k = k0 := fun e => h e.symm
      simp [lookupKey, h, ih, h']

theorem flattenValue_reprOfScalars (vs : List Scalar) :
    flattenValue (reprOfScalars vs) = vs := by
  match vs with
  | [] => rfl
  | [v] => rfl
  | v1 :: v2 :: t => rfl

theorem lookupKey_addQueryPair_ne (m : SearchParams) (k k' : String) (v : String)
    (h : k' ≠ k) : lookupKey (addQueryPair m k' v) k = lookupKey m k := by
  unfold addQueryPair
  cases hm : lookupKey m k' with
  | none => exact lookupKey_setKey_ne _ _ _ _ h
  | some pv => cases pv <;> exact lookupKey_setKey_ne _ _ _ _ h

theorem lookupKey_addQueryPair_self (m : SearchParams) (k : String) (v : String)
    (vs : List Scalar) (hm : lookupKey m k = reprOfScalars vs) :
    lookupKey (addQueryPair m k v) k = reprOfScalars (vs ++ [Scalar.str v]) := by
  unfold addQueryPair
  rw [hm]
  rcases vs with _ | ⟨a, _ | ⟨b, t⟩⟩
  · simp [reprOfScalars, lookupKey_setKey_self]
  · simp [reprOfScalars, lookupKey_setKey_self]
  · simp [reprOfScalars, lookupKey_setKey_self]

theorem lookupKey_addExplicitPair_ne (m : SearchParams) (k k' : String) (v : ParamValue)
    (h : k' ≠ k) : lookupKey (addExplicitPair m k' v) k = lookupKey m k := by
  unfold addExplicitPair
  cases hm : lookupKey m k' with
  | none => exact lookupKey_setKey_ne _ _ _ _ h
  | some pv => exact lookupKey_setKey_ne _ _ _ _ h

theorem queryFold_lookup (L : List (String × String)) (k : String) :
    lookupKey (L.foldl (fun m p => addQueryPair m p.1 p.2) []) k =
      reprOfScalars (((L.filter (fun p => p.1 = k)).map (fun p => p.2)).map Scalar.str) := by
  induction L using List.reverseRecOn with
  | nil => simp [lookupKey, reprOfScalars]
  | append_singleton L p ih =>
    rw [List.foldl_append]
    simp only [List.foldl_cons, List.foldl_nil]
    by_cases hp : p.1 = k
    · rw [show addQueryPair (L.foldl (fun m p => addQueryPair m p.1 p.2) []) p.1 p.2 =
          addQueryPair (L.foldl (fun m p => addQueryPair m p.1 p.2) []) k p.2 from by rw [hp]]
      rw [lookupKey_addQueryPair_self _ _ _ _ ih]
      simp [List.filter_append, hp]
    · rw [lookupKey_addQueryPair_ne _ _ _ _ hp]
      simp [List.filter_append, hp, ih]

theorem explicitFold_lookup (ps : SearchParams) (m : SearchParams) (k : String)
    (hnd : (ps.map Prod.fst).Nodup) :
    lookupKey (ps.foldl (fun m p => addExplicitPair m p.1 p.2) m) k =
      match lookupKey ps k with
      | none => lookupKey m k
      | some v =>
        some (match lookupKey m k with
          | none => v
          | some e => .arr (toScalarList e ++ toScalarList v)) := by
  induction ps generalizing m with
  | nil => simp [lookupKey]
  | cons p rest ih =>
    obtain ⟨k0, v0⟩ := p
    simp only [List.map_cons, List.nodup_cons] at hnd
    obtain ⟨hk0, hrest⟩ := hnd
    rw [List.foldl_cons, ih _ hrest]
    by_cases hk : k0 = k
    · subst hk
      have hr : lookupKey rest k0 = none := (lookupKey_eq_none rest k0).mpr hk0
      rw [hr]
      simp only [lookupKey, if_pos rfl]
      unfold addExplicitPair
      cases hm : lookupKey m k0 with
      | none => simp [lookupKey_setKey_self]
      | some e => simp [lookupKey_setKey_self]
    · have hlm : lookupKey (addExplicitPair m k0 v0) k = lookupKey m k :=
        lookupKey_addExplicitPair_ne _ _ _ _ hk
      rw [hlm]
      simp [lookupKey, hk]

theorem reprOfScalars_of_ne_nil (vs : List Scalar) (h : vs ≠ []) :
    ∃ e, reprOfScalars vs = some e ∧ toScalarList e = vs := by
  match vs with
  | [] => exact absurd rfl h
  | [v] => exact ⟨.scalar v, rfl, rfl⟩
  | v1 :: v2 :: t => exact ⟨.arr (v1 :: v2 :: t), rfl, rfl⟩

theorem reprOfScalars_eq_scalar (vs : List Scalar) (v : Scalar)
    (h : reprOfScalars vs = some (.scalar v)) : vs = [v] := by
  match vs with
  | [] => simp [reprOfScalars] at h
  | [x] =>
    simp [reprOfScalars] at h
    rw [h]
  | v1 :: v2 :: t => simp [reprOfScalars] at h

theorem mergeSearchParams_lookup (q : String) (ps : SearchParams) (k : String)
    (hnd : (ps.map Prod.fst).Nodup) :
    lookupKey (mergeSearchParams q (some ps)) k =
      match lookupKey ps k with
      | none => reprOfScalars ((queryValuesFor q k).map Scalar.str)
      | some v =>
        some (match reprOfScalars ((queryValuesFor q k).map Scalar.str) with
          | none => v
          | some e => .arr (toScalarList e ++ toScalarList v)) := by
  have hdef : mergeSearchParams q (some ps) =
      ps.foldl (fun m p => addExplicitPair m p.1 p.2)
        ((parseQuery q).foldl (fun m p => addQueryPair m p.1 p.2) []) := rfl
  rw [hdef, explicitFold_lookup _ _ _ hnd, queryFold_lookup]
  rfl

/-- Claim C3: for all query strings and explicit parameter maps, the merge
yields for every key present in either input: when the key appears in both, a
list whose elements are exactly the query-string values (in query order)
followed by the explicit values (in caller order), with no deduplication; and
a bare scalar only when the key appears exactly once across both sources. -/
theorem mergeSearchParams_append_only (q : String) (ps : SearchParams) (k : String)
    (hnd : (ps.map Prod.fst).Nodup) :
    ((lookupKey (mergeSearchParams q (some ps)) k).isSome ↔
      (queryValuesFor q k ≠ [] ∨ (lookupKey ps k).isSome)) ∧
    flattenValue (lookupKey (mergeSearchParams q (some ps)) k) =
      (queryValuesFor q k).map Scalar.str ++ explicitScalarsFor ps k ∧
    (queryValuesFor q k ≠ [] → (lookupKey ps k).isSome →
      ∃ vs, lookupKey (mergeSearchParams q (some ps)) k = some (.arr vs)) ∧
    (∀ v, lookupKey (mergeSearchParams q (some ps)) k = some (.scalar v) →
      (queryValuesFor q k).length +
        (if (lookupKey ps k).isSome then 1 else 0) = 1) := by
  have h := mergeSearchParams_lookup q ps k hnd
  cases hp : lookupKey ps k with
  | none =>
    rw [hp] at h
    refine ⟨?_, ?_, ?_, ?_⟩
    · rw [h]
      cases hQ : queryValuesFor q k with
      | nil => simp [reprOfScalars]
      | cons x xs =>
        rcases xs with _ | ⟨y, ys⟩ <;> simp [hQ, reprOfScalars]
    · rw [h, flattenValue_reprOfScalars]
      simp [explicitScalarsFor, hp, flattenValue]
    · intro _ hs
      simp at hs
    · intro v hv
      rw [h] at hv
      have hq := reprOfScalars_eq_scalar _ _ hv
      have hlen : (queryValuesFor q k).length = 1 := by
        have := congrArg List.length hq
        simpa using this
      simp [hlen]
  | some pv =>
    rw [hp] at h
    cases hQ : queryValuesFor q k with
    | nil =>
      rw [hQ] at h
      simp only [List.map_nil] at h
      have h' : lookupKey (mergeSearchParams q (some ps)) k = some pv := by
        rw [h]
        rfl
      refine ⟨by simp [h'], ?_, ?_, ?_⟩
      · rw [h']
        simp [flattenValue, hQ, explicitScalarsFor, hp]
      · intro hq _
        exact absurd rfl hq
      · intro v hv
        simp
    | cons x xs =>
      have hne : ((queryValuesFor q k).map Scalar.str) ≠ [] := by simp [hQ]
      obtain ⟨e, he, hte⟩ := reprOfScalars_of_ne_nil _ hne
      rw [he] at h
      have h' : lookupKey (mergeSearchParams q (some ps)) k =
          some (.arr (toScalarList e ++ toScalarList pv)) := by
        rw [h]
      refine ⟨by simp [h'], ?_, ?_, ?_⟩
      · rw [h']
        have hfl : flattenValue (some (ParamValue.arr (toScalarList e ++ toScalarList pv))) =
            toScalarList e ++ toScalarList pv := rfl
        rw [hfl, hte, hQ]
        simp [explicitScalarsFor, hp, flattenValue]
      · intro _ _
        exact ⟨_, h'⟩
      · intro v hv
        rw [h'] at hv
        simp at hv

theorem mergeSearchParams_append_only_witness :
    ((([("a", ParamValue.arr [Scalar.num 3]),
        ("b", ParamValue.scalar (Scalar.bool true))] : SearchParams).map Prod.fst).Nodup) ∧
    flattenValue (lookupKey (mergeSearchParams "a=1&a=2"
        (some [("a", ParamValue.arr [Scalar.num 3]),
               ("b", ParamValue.scalar (Scalar.bool true))])) "a") =
      (queryValuesFor "a=1&a=2" "a").map Scalar.str ++
        explicitScalarsFor
          [("a", ParamValue.arr [Scalar.num 3]),
           ("b", ParamValue.scalar (Scalar.bool true))] "a" :=
  ⟨by decide, (mergeSearchParams_append_only "a=1&a=2" _ "a" (by decide)).2.1⟩

/-- Claim C10: every merged value derived from the query string is a string
scalar, values from the explicit parameter map are retained with their
original scalar type, and hence the same logical parameter supplied via the
query string versus the explicit map can yield unequal merged sets. -/
theorem mergeSearchParams_value_types :
    (∀ (q k : String) (pv : ParamValue),
        lookupKey (mergeSearchParams q none) k = some pv →
        ∀ s ∈ toScalarList pv, ∃ t, s = Scalar.str t) ∧
    (∀ ps : SearchParams, (ps.map Prod.fst).Nodup →
        ∀ k, lookupKey (mergeSearchParams "" (some ps)) k = lookupKey ps k) ∧
    mergeSearchParams "active=true" none ≠
      mergeSearchParams "" (some [("active", ParamValue.scalar (Scalar.bool true))]) := by
  refine ⟨?_, ?_, by decide⟩
  · intro q k pv hpv s hs
    have hdef : mergeSearchParams q none =
        (parseQuery q).foldl (fun m p => addQueryPair m p.1 p.2) [] := rfl
    rw [hdef, queryFold_lookup] at hpv
    have hts : toScalarList pv =
        (((parseQuery q).filter (fun p => p.1 = k)).map (fun p => p.2)).map Scalar.str := by
      have h1 : flattenValue (some pv) = toScalarList pv := rfl
      rw [← h1, ← hpv, flattenValue_reprOfScalars]
    rw [hts] at hs
    obtain ⟨t, _, ht⟩ := List.mem_map.mp hs
    exact ⟨t, ht.symm⟩
  · intro ps hnd k
    have h := mergeSearchParams_lookup "" ps k hnd
    have hpq : parseQuery "" = [] := by decide
    have hq : queryValuesFor "" k = [] := by simp [queryValuesFor, hpq]
    rw [hq] at h
    cases hpk : lookupKey ps k with
    | none =>
      rw [hpk] at h
      rw [h]
      rfl
    | some v =>
      rw [hpk] at h
      rw [h]
      rfl

theorem mergeSearchParams_value_types_witness :
    lookupKey (mergeSearchParams "active=true" none) "active" =
      some (ParamValue.scalar (Scalar.str "true")) ∧
    (∃ t, Scalar.str "true" = Scalar.str t) ∧
    ((([("a", ParamValue.scalar (Scalar.num 5))] : SearchParams).map Prod.fst).Nodup) ∧
    lookupKey (mergeSearchParams "" (some [("a", ParamValue.scalar (Scalar.num 5))])) "a" =
      lookupKey [("a", ParamValue.scalar (Scalar.num 5))] "a" :=
  ⟨by decide,
    mergeSearchParams_value_types.1 "active=true" "active"
      (ParamValue.scalar (Scalar.str "true")) (by decide) (Scalar.str "true") (by decide),
    by decide,
    mergeSearchParams_value_types.2.1 [("a", ParamValue.scalar (Scalar.num 5))] (by decide) "a"⟩

/-- Claim C6: `normalize('R4')`, `normalize('4.0.1')` and `normalize('4.0')`
all return the same canonical two-part version; every token outside the
accepted enumeration fails with an error carrying the offending token
verbatim; and every accepted token maps to one of the three canonical
values. -/
theorem normalizeFhirVersion_spec :
    (normalizeFhirVersion "R4" = .ok "4.0" ∧ normalizeFhirVersion "4.0.1" = .ok "4.0" ∧
      normalizeFhirVersion "4.0" = .ok "4.0") ∧
    (∀ t : String, t ∉ acceptedVersionTokens →
      normalizeFhirVersion t = .error (.unsupportedVersion t)) ∧
    (∀ t : String,
      (FhirError.unsupportedVersion t).message = "Unsupported FHIR version: " ++ t) ∧
    (∀ t ∈ acceptedVersionTokens,
      normalizeFhirVersion t = .ok "3.0" ∨ normalizeFhirVersion t = .ok "4.0" ∨
        normalizeFhirVersion t = .ok "5.0") := by
  refine ⟨⟨by decide, by decide, by decide⟩, ?_, fun t => rfl, ?_⟩
  · intro t ht
    simp only [acceptedVersionTokens, List.mem_cons, List.not_mem_nil, or_false] at ht
    push_neg at ht
    obtain ⟨h1, h2, h3, h4, h5, h6, h7, h8, h9⟩ := ht
    simp [normalizeFhirVersion, h1, h2, h3, h4, h5, h6, h7, h8, h9]
  · intro t ht
    fin_cases ht <;> decide

theorem normalizeFhirVersion_spec_witness :
    "2.0" ∉ acceptedVersionTokens ∧
    normalizeFhirVersion "2.0" = .error (.unsupportedVersion "2.0") ∧
    "R4" ∈ acceptedVersionTokens ∧
    (normalizeFhirVersion "R4" = .ok "3.0" ∨ normalizeFhirVersion "R4" = .ok "4.0" ∨
      normalizeFhirVersion "R4" = .ok "5.0") :=
  ⟨by decide, normalizeFhirVersion_spec.2.1 "2.0" (by decide), by decide,
    normalizeFhirVersion_spec.2.2.2 "R4" (by decide)⟩

/-- Claim C7: a bundle whose type is not `transaction` makes
`processTransaction` fail with a validation error naming both the expected
and the actual type, with no transport invocation (and symmetrically
`processBatch` requires type `batch`). -/
theorem processTransaction_guard (ce : Bool) (fv : String) (tr : Transport)
    (cache : Cache) (b : Bundle) (hb : b.resourceType = "Bundle") :
    (b.type ≠ "transaction" →
      processTransaction ce fv tr cache b =
        ⟨.error (.wrongBundleType "processTransaction" "transaction" b.type),
          cache, [], false⟩) ∧
    (b.type ≠ "batch" →
      processBatch ce fv tr cache b =
        ⟨.error (.wrongBundleType "processBatch" "batch" b.type), cache, [], false⟩) ∧
    (∀ op expected actual : String, (FhirError.wrongBundleType op expected actual).message =
      op ++ " requires a Bundle of type '" ++ expected ++ "', got '" ++ actual ++ "'") := by
  refine ⟨?_, ?_, fun op expected actual => rfl⟩
  · intro ht
    simp [processTransaction, hb, ht]
  · intro ht
    simp [processBatch, hb, ht]

theorem processTransaction_guard_witness :
    (Bundle.mk "Bundle" "batch" [] []).resourceType = "Bundle" ∧
    (Bundle.mk "Bundle" "batch" [] []).type ≠ "transaction" ∧
    processTransaction false "R4" (fun _ => .ok (Bundle.mk "Bundle" "searchset" [] []))
        [] (Bundle.mk "Bundle" "batch" [] []) =
      ⟨.error (.wrongBundleType "processTransaction" "transaction" "batch"),
        [], [], false⟩ :=
  ⟨rfl, by decide,
    (processTransaction_guard false "R4" (fun _ => .ok (Bundle.mk "Bundle" "searchset" [] []))
      [] (Bundle.mk "Bundle" "batch" [] []) rfl).1 (by decide)⟩

/-- Claim C1 is refuted by the code: with `asPost` set and an array-valued
parameter, the form body applies JS `String(value)` to the whole array, so
the array is comma-joined into a single form field (here `identifier=a%2Cb`)
instead of being encoded as repeated `identifier=` fields — contradicting
the repository's own test, which requires repeated fields and forbids the
comma-joined form. -/
theorem search_asPost_commaJoins_arrays :
    searchPostBody [("identifier", ParamValue.arr [Scalar.str "a", Scalar.str "b"])] =
      "identifier=a%2Cb" ∧
    searchPostBody [("identifier", ParamValue.arr [Scalar.str "a", Scalar.str "b"])] ≠
      "identifier=a&identifier=b" ∧
    (search false "R4" none (fun _ => .ok (Bundle.mk "Bundle" "searchset" [] [])) 0 []
        "Patient" (some [("identifier", ParamValue.arr [Scalar.str "a", Scalar.str "b"])])
        { asPost := true }).calls =
      [{ method := "POST", url := "Patient/_search",
         data := some (.form "identifier=a%2Cb"),
         headers := [("Content-Type", "application/x-www-form-urlencoded")] }] :=
  ⟨by decide, by decide, by decide⟩

/-- Claim C8 (resolver modelled from the spec, implementation absent from
src/): a search yielding zero surviving entries fails with no-match, more
than one surviving entry fails with multiple-matches carrying the count, and
the `toLiteral` / `resourceId` convenience variants build on the same core,
failing identically. -/
theorem resolve_match_cardinality (b : Bundle) :
    (survivingEntries b = [] →
      resolveFromPage b = .error .noMatch ∧
      toLiteralFromPage b = .error .noMatch ∧
      resourceIdFromPage b = .error .noMatch) ∧
    (2 ≤ (survivingEntries b).length →
      resolveFromPage b = .error (.multipleMatches (survivingEntries b).length) ∧
      toLiteralFromPage b = .error (.multipleMatches (survivingEntries b).length) ∧
      resourceIdFromPage b = .error (.multipleMatches (survivingEntries b).length)) ∧
    (∀ n, (FhirError.multipleMatches n).message =
      "Search returned multiple matches (" ++ Nat.repr n ++
        "), criteria not selective enough") := by
  refine ⟨?_, ?_, fun n => rfl⟩
  · intro h
    simp [resolveFromPage, toLiteralFromPage, resourceIdFromPage,
      selectResolvedResource, h, Except.map]
  · intro h
    rcases hs : survivingEntries b with _ | ⟨r1, _ | ⟨r2, rs⟩⟩
    · rw [hs] at h
      simp at h
    · rw [hs] at h
      simp at h
    · simp [resolveFromPage, toLiteralFromPage, resourceIdFromPage,
        selectResolvedResource, hs, Except.map]

theorem resolve_match_cardinality_witness :
    survivingEntries (Bundle.mk "Bundle" "searchset" [] []) = [] ∧
    resolveFromPage (Bundle.mk "Bundle" "searchset" [] []) = .error .noMatch ∧
    2 ≤ (survivingEntries (Bundle.mk "Bundle" "searchset" []
      [Entry.mk (some (Resource.mk (some "Patient") (some "1"))) (some "match"),
       Entry.mk (some (Resource.mk (some "Patient") (some "2"))) none])).length ∧
    resolveFromPage (Bundle.mk "Bundle" "searchset" []
      [Entry.mk (some (Resource.mk (some "Patient") (some "1"))) (some "match"),
       Entry.mk (some (Resource.mk (some "Patient") (some "2"))) none]) =
      .error (.multipleMatches (survivingEntries (Bundle.mk "Bundle" "searchset" []
        [Entry.mk (some (Resource.mk (some "Patient") (some "1"))) (some "match"),
         Entry.mk (some (Resource.mk (some "Patient") (some "2"))) none])).length) :=
  ⟨by decide, ((resolve_match_cardinality (Bundle.mk "Bundle" "searchset" [] [])).1 rfl).1,
    by decide,
    ((resolve_match_cardinality (Bundle.mk "Bundle" "searchset" []
      [Entry.mk (some (Resource.mk (some "Patient") (some "1"))) (some "match"),
       Entry.mk (some (Resource.mk (some "Patient") (some "2"))) none])).2.1 (by decide)).1⟩

theorem request_send_get_ok (ce : Bool) (fv : String) (tr : Transport) (cache : Cache)
    (cfg : ReqConfig) (noCache : Bool) (v : Bundle)
    (hguard : (ce && decide (lowerString cfg.method = "get") && !noCache) = false)
    (hnotmut : isMutationMethod cfg.method = false)
    (htr : tr cfg = .ok v) :
    request ce fv tr cache cfg noCache = ⟨.ok v, cache, [cfg], false⟩ := by
  unfold request requestSend
  rw [hguard]
  simp [hnotmut, htr]

theorem request_send_error (ce : Bool) (fv : String) (tr : Transport) (cache : Cache)
    (cfg : ReqConfig) (noCache : Bool) (e : String)
    (hguard : (ce && decide (lowerString cfg.method = "get") && !noCache) = false)
    (hnotmut : isMutationMethod cfg.method = false)
    (htr : tr cfg = .error e) :
    request ce fv tr cache cfg noCache = ⟨.error (.transportFailure e), cache, [cfg], false⟩ := by
  unfold request requestSend
  rw [hguard]
  simp [hnotmut, htr]

theorem request_get_hit (fv : String) (tr : Transport) (cache : Cache) (cfg : ReqConfig)
    (v : Bundle) (hm : lowerString cfg.method = "get")
    (hhit : cacheGet cache cfg = some v) :
    request true fv tr cache cfg false = ⟨.ok v, cache, [], true⟩ := by
  unfold request
  simp [hm, hhit]

theorem request_get_miss_ok (fv : String) (tr : Transport) (cache : Cache) (cfg : ReqConfig)
    (v : Bundle) (hm : lowerString cfg.method = "get")
    (hnotmut : isMutationMethod cfg.method = false)
    (hmiss : cacheGet cache cfg = none) (htr : tr cfg = .ok v) :
    request true fv tr cache cfg false = ⟨.ok v, cacheSet cache cfg v, [cfg], false⟩ := by
  unfold request requestSend
  simp [hm, hmiss, hnotmut, htr]

theorem hasNextLink_of_find (b : Bundle) (l : Link) (h : findNextLink b = some l) :
    hasNextLink b = true := by
  unfold findNextLink at h
  unfold hasNextLink
  have h1 := List.find?_some h
  have h2 := List.mem_of_find?_eq_some h
  exact List.any_eq_true.mpr ⟨l, h2, h1⟩

/-- Claim C4: for every request whose method is not the read verb, and for
every call with the `noCache` bypass flag set, the cache contents after the
call equal the cache contents before it and the response is never served from
the cache. -/
theorem request_bypass_frame (ce : Bool) (fv : String) (tr : Transport) (cache : Cache)
    (cfg : ReqConfig) (noCache : Bool)
    (h : lowerString cfg.method ≠ "get" ∨ noCache = true) :
    (request ce fv tr cache cfg noCache).cache = cache ∧
    (request ce fv tr cache cfg noCache).fromCache = false := by
  have hg : (ce && decide (lowerString cfg.method = "get") && !noCache) = false := by
    rcases h with h | h
    · simp [h]
    · simp [h]
  unfold request requestSend
  rw [hg]
  simp only [Bool.false_eq_true, if_false]
  split
  · simp
  · split
    · simp
    · simp

theorem request_bypass_frame_witness :
    (lowerString "POST" ≠ "get" ∨ false = true) ∧
    (request true "R4" (fun _ => .ok (Bundle.mk "Bundle" "searchset" [] []))
        [] (ReqConfig.mk "POST" "Patient" [] none []) false).cache = [] ∧
    (request true "R4" (fun _ => .ok (Bundle.mk "Bundle" "searchset" [] []))
        [] (ReqConfig.mk "POST" "Patient" [] none []) false).fromCache = false :=
  ⟨Or.inl (by decide),
    (request_bypass_frame true "R4" (fun _ => .ok (Bundle.mk "Bundle" "searchset" [] []))
      [] (ReqConfig.mk "POST" "Patient" [] none []) false (Or.inl (by decide))).1,
    (request_bypass_frame true "R4" (fun _ => .ok (Bundle.mk "Bundle" "searchset" [] []))
      [] (ReqConfig.mk "POST" "Patient" [] none []) false (Or.inl (by decide))).2⟩

/-- Claim C5: a transport failure while fetching a next page is not retried
and not swallowed: the walk ends with exactly that one transport invocation
and propagates the error to the caller instead of returning the partially
accumulated results. -/
theorem fetchAll_transport_error_propagates (fv : String) (tr : Transport) (cache : Cache)
    (fuel max : Nat) (b : Bundle) (u e : String)
    (hnext : findNextLink b = some (Link.mk "next" u)) (hu : u ≠ "")
    (hle : (collectEntries b).length ≤ max)
    (htr : tr (ReqConfig.mk "GET" u [] none []) = .error e) :
    fetchAllPages false fv tr (fuel + 1) cache b max =
      ⟨.error (.transportFailure e), cache, [ReqConfig.mk "GET" u [] none []]⟩ := by
  have hreq := request_send_error false fv tr cache (ReqConfig.mk "GET" u [] none [])
    false e (by simp) (by rfl) htr
  unfold fetchAllPages
  rw [if_neg (by omega)]
  unfold fetchPagesLoop
  rw [if_pos (hasNextLink_of_find b _ hnext), hnext]
  simp only [hu, if_false, hreq]

theorem fetchAll_transport_error_propagates_witness :
    findNextLink (Bundle.mk "Bundle" "searchset" [Link.mk "next" "http://x/page2"] []) =
      some (Link.mk "next" "http://x/page2") ∧
    "http://x/page2" ≠ "" ∧
    (collectEntries (Bundle.mk "Bundle" "searchset" [Link.mk "next" "http://x/page2"] [])).length ≤ 10 ∧
    ((fun _ => .error "Network error" : Transport)
        (ReqConfig.mk "GET" "http://x/page2" [] none []) = .error "Network error") ∧
    fetchAllPages false "R4" (fun _ => .error "Network error") 1 []
        (Bundle.mk "Bundle" "searchset" [Link.mk "next" "http://x/page2"] []) 10 =
      ⟨.error (.transportFailure "Network error"), [],
        [ReqConfig.mk "GET" "http://x/page2" [] none []]⟩ :=
  ⟨by decide, by decide, by decide, rfl,
    fetchAll_transport_error_propagates "R4" (fun _ => .error "Network error") [] 0 10
      (Bundle.mk "Bundle" "searchset" [Link.mk "next" "http://x/page2"] [])
      "http://x/page2" "Network error" (by decide) (by decide) (by decide) rfl⟩

/-- Claim C2: with `fetchAll`, the effective bound is `options.maxResults` if
given, else the configured `maxFetchAllResults`, else 10000; immediately
after any append that pushes the accumulated count past this bound the walk
fails with a bound-exceeded error naming the bound, and no request for a
further page is issued. -/
theorem searchFetchAll_effective_bound :
    (∀ (cfgMax optMax : Option Nat) (fv : String) (tr : Transport) (cache : Cache)
        (fuel : Nat) (b0 : Bundle),
        tr (ReqConfig.mk "GET" "Patient" [] none []) = .ok b0 →
        (collectEntries b0).length > optMax.getD (cfgMax.getD 10000) →
        search false fv cfgMax tr fuel cache "Patient" none
            (SearchOptions.mk true optMax false false) =
          ⟨.error (.maxResultsInitial (optMax.getD (cfgMax.getD 10000))), cache,
            [ReqConfig.mk "GET" "Patient" [] none []]⟩) ∧
    (∀ (fv : String) (tr : Transport) (cache : Cache) (fuel max : Nat)
        (cur p : Bundle) (u : String) (results : List Resource),
        findNextLink cur = some (Link.mk "next" u) → u ≠ "" →
        tr (ReqConfig.mk "GET" u [] none []) = .ok p →
        (results ++ collectEntries p).length > max →
        fetchPagesLoop false fv tr (fuel + 1) cache cur results max =
          ⟨.error (.maxResultsPage max), cache, [ReqConfig.mk "GET" u [] none []]⟩) ∧
    (∀ n, (FhirError.maxResultsInitial n).message =
        "Maximum result limit (" ++ Nat.repr n ++
          ") exceeded. Narrow down your search or increase maxFetchAllResults." ∧
      (FhirError.maxResultsPage n).message =
        "Maximum result limit (" ++ Nat.repr n ++
          ") exceeded. Use pagination or increase maxFetchAllResults config.") := by
  refine ⟨?_, ?_, fun n => ⟨rfl, rfl⟩⟩
  · intro cfgMax optMax fv tr cache fuel b0 htr hbig
    have hreq := request_send_get_ok false fv tr cache (ReqConfig.mk "GET" "Patient" [] none [])
      false b0 (by simp) (by rfl) htr
    have hsplit : splitQuery "Patient" = ("Patient", none) := by decide
    unfold search
    rw [hsplit]
    simp only [Option.getD_none]
    rw [hreq]
    simp [fetchAllPages, Except.map, hbig]
  · intro fv tr cache fuel max cur p u results hnext hu htr hbig
    have hreq := request_send_get_ok false fv tr cache (ReqConfig.mk "GET" u [] none [])
      false p (by simp) (by rfl) htr
    unfold fetchPagesLoop
    rw [if_pos (hasNextLink_of_find cur _ hnext), hnext]
    simp only [hu, if_false, hreq]
    rw [if_pos hbig]

theorem searchFetchAll_effective_bound_witness :
    ((fun _ => Except.ok (Bundle.mk "Bundle" "searchset" []
        [Entry.mk (some (Resource.mk (some "Patient") (some "1"))) none,
         Entry.mk (some (Resource.mk (some "Patient") (some "2"))) none]) : Transport)
      (ReqConfig.mk "GET" "Patient" [] none []) =
        .ok (Bundle.mk "Bundle" "searchset" []
          [Entry.mk (some (Resource.mk (some "Patient") (some "1"))) none,
           Entry.mk (some (Resource.mk (some "Patient") (some "2"))) none])) ∧
    (collectEntries (Bundle.mk "Bundle" "searchset" []
        [Entry.mk (some (Resource.mk (some "Patient") (some "1"))) none,
         Entry.mk (some (Resource.mk (some "Patient") (some "2"))) none])).length > 1 ∧
    search false "R4" none
        (fun _ => Except.ok (Bundle.mk "Bundle" "searchset" []
          [Entry.mk (some (Resource.mk (some "Patient") (some "1"))) none,
           Entry.mk (some (Resource.mk (some "Patient") (some "2"))) none])) 0 []
        "Patient" none (SearchOptions.mk true (some 1) false false) =
      ⟨.error (.maxResultsInitial 1), [], [ReqConfig.mk "GET" "Patient" [] none []]⟩ :=
  ⟨rfl, by decide,
    searchFetchAll_effective_bound.1 none (some 1) "R4"
      (fun _ => Except.ok (Bundle.mk "Bundle" "searchset" []
        [Entry.mk (some (Resource.mk (some "Patient") (some "1"))) none,
         Entry.mk (some (Resource.mk (some "Patient") (some "2"))) none])) [] 0
      (Bundle.mk "Bundle" "searchset" []
        [Entry.mk (some (Resource.mk (some "Patient") (some "1"))) none,
         Entry.mk (some (Resource.mk (some "Patient") (some "2"))) none]) rfl (by decide)⟩

/-- Claim C9: every next-page request of a fetchAll walk is issued without
the cache bypass, so with the cache enabled a next-page fetch performs the
cache lookup (a hit short-circuits the transport) and the post-response
store, even when the originating search passed `noCache: true` — only the
initial search request honors the bypass (its response is neither served
from nor stored in the cache). -/
theorem fetchAll_nextPage_cache_scope :
    (∀ (fv : String) (tr : Transport) (cache : Cache) (fuel : Nat) (u : String)
        (e0 e1 : List Entry),
        u ≠ "" →
        tr (ReqConfig.mk "GET" "Patient" [] none []) =
          .ok (Bundle.mk "Bundle" "searchset" [Link.mk "next" u] e0) →
        cacheGet cache (ReqConfig.mk "GET" u [] none []) =
          some (Bundle.mk "Bundle" "searchset" [] e1) →
        (collectEntries (Bundle.mk "Bundle" "searchset" [Link.mk "next" u] e0)).length ≤ 10000 →
        (collectEntries (Bundle.mk "Bundle" "searchset" [Link.mk "next" u] e0) ++
            collectEntries (Bundle.mk "Bundle" "searchset" [] e1)).length ≤ 10000 →
        search true fv none tr (fuel + 2) cache "Patient" none
            (SearchOptions.mk true none false true) =
          ⟨.ok (.resources
              (collectEntries (Bundle.mk "Bundle" "searchset" [Link.mk "next" u] e0) ++
                collectEntries (Bundle.mk "Bundle" "searchset" [] e1))),
            cache, [ReqConfig.mk "GET" "Patient" [] none []]⟩) ∧
    (∀ (fv : String) (tr : Transport) (cache : Cache) (fuel : Nat) (u : String)
        (e0 e1 : List Entry),
        u ≠ "" →
        tr (ReqConfig.mk "GET" "Patient" [] none []) =
          .ok (Bundle.mk "Bundle" "searchset" [Link.mk "next" u] e0) →
        cacheGet cache (ReqConfig.mk "GET" u [] none []) = none →
        tr (ReqConfig.mk "GET" u [] none []) =
          .ok (Bundle.mk "Bundle" "searchset" [] e1) →
        (collectEntries (Bundle.mk "Bundle" "searchset" [Link.mk "next" u] e0)).length ≤ 10000 →
        (collectEntries (Bundle.mk "Bundle" "searchset" [Link.mk "next" u] e0) ++
            collectEntries (Bundle.mk "Bundle" "searchset" [] e1)).length ≤ 10000 →
        search true fv none tr (fuel + 2) cache "Patient" none
            (SearchOptions.mk true none false true) =
          ⟨.ok (.resources
              (collectEntries (Bundle.mk "Bundle" "searchset" [Link.mk "next" u] e0) ++
                collectEntries (Bundle.mk "Bundle" "searchset" [] e1))),
            cacheSet cache (ReqConfig.mk "GET" u [] none [])
              (Bundle.mk "Bundle" "searchset" [] e1),
            [ReqConfig.mk "GET" "Patient" [] none [], ReqConfig.mk "GET" u [] none []]⟩) := by
  constructor
  · intro fv tr cache fuel u e0 e1 hu htr hhit hl1 hl2
    have hinit := request_send_get_ok true fv tr cache
      (ReqConfig.mk "GET" "Patient" [] none []) true _ (by simp) (by rfl) htr
    have hnextreq := request_get_hit fv tr cache (ReqConfig.mk "GET" u [] none [])
      _ (by rfl) hhit
    have hsplit : splitQuery "Patient" = ("Patient", none) := by decide
    have hl1' : ¬((collectEntries
        (Bundle.mk "Bundle" "searchset" [Link.mk "next" u] e0)).length > 10000) := by omega
    have hl2' : ¬(10000 <
        (collectEntries (Bundle.mk "Bundle" "searchset" [Link.mk "next" u] e0)).length +
          (collectEntries (Bundle.mk "Bundle" "searchset" [] e1)).length) := by
      have h2 := hl2
      rw [List.length_append] at h2
      omega
    unfold search
    rw [hsplit]
    simp only [Option.getD_none]
    rw [hinit]
    simp [fetchAllPages, fetchPagesLoop, hasNextLink, findNextLink, hu,
      hnextreq, hl1', hl2', Except.map]
  · intro fv tr cache fuel u e0 e1 hu htr hmiss htr2 hl1 hl2
    have hinit := request_send_get_ok true fv tr cache
      (ReqConfig.mk "GET" "Patient" [] none []) true _ (by simp) (by rfl) htr
    have hnextreq := request_get_miss_ok fv tr cache (ReqConfig.mk "GET" u [] none [])
      _ (by rfl) (by rfl) hmiss htr2
    have hsplit : splitQuery "Patient" = ("Patient", none) := by decide
    have hl1' : ¬((collectEntries
        (Bundle.mk "Bundle" "searchset" [Link.mk "next" u] e0)).length > 10000) := by omega
    have hl2' : ¬(10000 <
        (collectEntries (Bundle.mk "Bundle" "searchset" [Link.mk "next" u] e0)).length +
          (collectEntries (Bundle.mk "Bundle" "searchset" [] e1)).length) := by
      have h2 := hl2
      rw [List.length_append] at h2
      omega
    unfold search
    rw [hsplit]
    simp only [Option.getD_none]
    rw [hinit]
    simp [fetchAllPages, fetchPagesLoop, hasNextLink, findNextLink, hu,
      hnextreq, hl1', hl2', Except.map]

theorem fetchAll_nextPage_cache_scope_witness :
    ("http://x/p2" : String) ≠ "" ∧
    search true "R4" none
        (fun _ => Except.ok (Bundle.mk "Bundle" "searchset" [Link.mk "next" "http://x/p2"]
          [Entry.mk (some (Resource.mk (some "Patient") (some "1"))) none])) 2
        [(ReqConfig.mk "GET" "http://x/p2" [] none [],
          Bundle.mk "Bundle" "searchset" []
            [Entry.mk (some (Resource.mk (some "Patient") (some "2"))) none])]
        "Patient" none (SearchOptions.mk true none false true) =
      ⟨.ok (.resources
          (collectEntries (Bundle.mk "Bundle" "searchset" [Link.mk "next" "http://x/p2"]
              [Entry.mk (some (Resource.mk (some "Patient") (some "1"))) none]) ++
            collectEntries (Bundle.mk "Bundle" "searchset" []
              [Entry.mk (some (Resource.mk (some "Patient") (some "2"))) none]))),
        [(ReqConfig.mk "GET" "http://x/p2" [] none [],
          Bundle.mk "Bundle" "searchset" []
            [Entry.mk (some (Resource.mk (some "Patient") (some "2"))) none])],
        [ReqConfig.mk "GET" "Patient" [] none []]⟩ ∧
    search true "R4" none
        (fun c => if c.url = "Patient" then
          Except.ok (Bundle.mk "Bundle" "searchset" [Link.mk "next" "http://x/p2"]
            [Entry.mk (some (Resource.mk (some "Patient") (some "1"))) none])
        else
          Except.ok (Bundle.mk "Bundle" "searchset" []
            [Entry.mk (some (Resource.mk (some "Patient") (some "2"))) none])) 2 []
        "Patient" none (SearchOptions.mk true none false true) =
      ⟨.ok (.resources
          (collectEntries (Bundle.mk "Bundle" "searchset" [Link.mk "next" "http://x/p2"]
              [Entry.mk (some (Resource.mk (some "Patient") (some "1"))) none]) ++
            collectEntries (Bundle.mk "Bundle" "searchset" []
              [Entry.mk (some (Resource.mk (some "Patient") (some "2"))) none]))),
        cacheSet [] (ReqConfig.mk "GET" "http://x/p2" [] none [])
          (Bundle.mk "Bundle" "searchset" []
            [Entry.mk (some (Resource.mk (some "Patient") (some "2"))) none]),
        [ReqConfig.mk "GET" "Patient" [] none [],
         ReqConfig.mk "GET" "http://x/p2" [] none []]⟩ :=
  ⟨by decide,
    fetchAll_nextPage_cache_scope.1 "R4"
      (fun _ => Except.ok (Bundle.mk "Bundle" "searchset" [Link.mk "next" "http://x/p2"]
        [Entry.mk (some (Resource.mk (some "Patient") (some "1"))) none]))
      [(ReqConfig.mk "GET" "http://x/p2" [] none [],
        Bundle.mk "Bundle" "searchset" []
          [Entry.mk (some (Resource.mk (some "Patient") (some "2"))) none])]
      0 "http://x/p2"
      [Entry.mk (some (Resource.mk (some "Patient") (some "1"))) none]
      [Entry.mk (some (Resource.mk (some "Patient") (some "2"))) none]
      (by decide) rfl (by decide) (by decide) (by decide),
    fetchAll_nextPage_cache_scope.2 "R4"
      (fun c => if c.url = "Patient" then
        Except.ok (Bundle.mk "Bundle" "searchset" [Link.mk "next" "http://x/p2"]
          [Entry.mk (some (Resource.mk (some "Patient") (some "1"))) none])
      else
        Except.ok (Bundle.mk "Bundle" "searchset" []
          [Entry.mk (some (Resource.mk (some "Patient") (some "2"))) none]))
      [] 0 "http://x/p2"
      [Entry.mk (some (Resource.mk (some "Patient") (some "1"))) none]
      [Entry.mk (some (Resource.mk (some "Patient") (some "2"))) none]
      (by decide) (by decide) (by decide) (by decide) (by decide) (by decide)⟩
